import Mathlib

/-!
Shallow embedding of the NameGrid repository (gen_cards.py, gen_cards_ai.py,
generate.py): the card/nametag layout engine.  Pure geometry is modelled over
ℚ (ReportLab coordinates are exact decimal multiples of the point), text
metrics are modelled by a per-character advance-width function
(ReportLab's stringWidth is the sum of glyph advance widths, linear in the
font size; the actual TTF files are not part of the repository, so the
character width function is a parameter, with a concrete `modelCW` instance
used for concrete evaluations).
-/

namespace NameGrid

/-! ## List utilities used by the embedding -/

/-- Enumerate a list starting from index `s` (Python's `enumerate`). -/
def enumFrom (s : ℕ) : List α → List (ℕ × α)
  | [] => []
  | x :: xs => (s, x) :: enumFrom (s + 1) xs

/-- Split a list into consecutive chunks of size `k+1`; the Python idiom
`for p in range(0, len(cards), step): cards[p:p+step]`. -/
def chunksOf (k : ℕ) : List α → List (List α)
  | [] => []
  | x :: xs => ((x :: xs).take (k + 1)) :: chunksOf k ((x :: xs).drop (k + 1))
termination_by l => l.length
decreasing_by simp [List.length_drop]; omega

theorem enumFrom_length (s : ℕ) (l : List α) : (enumFrom s l).length = l.length := by
  induction l generalizing s with
  | nil => rfl
  | cons x xs ih => simp [enumFrom, ih]

theorem enumFrom_getElem? (s j : ℕ) (l : List α) :
    (enumFrom s l)[j]? = l[j]?.map (fun x => (s + j, x)) := by
  induction l generalizing s j with
  | nil => simp [enumFrom]
  | cons x xs ih =>
    cases j with
    | zero => simp [enumFrom]
    | succ j =>
      simp only [enumFrom, List.getElem?_cons_succ, ih]
      cases xs[j]? <;> simp [Nat.add_assoc, Nat.add_comm 1 j]

theorem chunksOf_length (k : ℕ) (l : List α) :
    (chunksOf k l).length = (l.length + k) / (k + 1) := by
  induction l using chunksOf.induct k with
  | case1 => simp [chunksOf, Nat.div_eq_of_lt (Nat.lt_succ_self k)]
  | case2 x xs ih =>
    rw [chunksOf]
    simp only [List.length_cons, List.length_drop] at ih ⊢
    rw [ih]
    rcases Nat.lt_or_ge (xs.length + 1) (k + 1) with h | h
    · have h1 : xs.length + 1 - (k + 1) = 0 := by omega
      have h2 : (xs.length + 1 + k) / (k + 1) = 1 :=
        Nat.div_eq_of_lt_le (by omega) (by omega)
      have h3 : k / (k + 1) = 0 := Nat.div_eq_of_lt (by omega)
      rw [h1]
      simp [h2, h3]
    · have h1 : xs.length + 1 - (k + 1) + k + (k + 1) = xs.length + 1 + k := by omega
      rw [← h1, Nat.add_div_right _ (Nat.succ_pos k)]

theorem chunksOf_getElem? (k : ℕ) (l : List α) (p : ℕ) :
    (chunksOf k l)[p]? =
      if (k + 1) * p < l.length then some ((l.drop ((k + 1) * p)).take (k + 1)) else none := by
  induction l using chunksOf.induct k generalizing p with
  | case1 => simp [chunksOf]
  | case2 x xs ih =>
    rw [chunksOf]
    cases p with
    | zero => simp
    | succ p =>
      simp only [List.getElem?_cons_succ, ih p, List.length_drop, List.length_cons,
        List.drop_drop]
      have h3 : k + 1 + (k + 1) * p = (k + 1) * (p + 1) := by ring
      rcases Nat.lt_or_ge ((k + 1) * (p + 1)) (xs.length + 1) with h | h
      · rw [if_pos (by omega), if_pos h, h3]
      · rw [if_neg (by omega), if_neg (by omega)]

/-! ## Geometry constants

Exact translations of the module-level constants of `gen_cards.py`
(`inch = 72`, `mm = 72 / 25.4` points, US Letter is 612 x 792 points). -/

def inchQ : ℚ := 72

def mmQ : ℚ := 360 / 127

def letterW : ℚ := 612

def letterH : ℚ := 792

def CARD_WIDTH : ℚ := 2.5 * inchQ

def CARD_HEIGHT : ℚ := 3.5 * inchQ

def MARGIN : ℚ := 0.125 * inchQ

def TITLE_HEIGHT : ℚ := 0.3 * inchQ

def TYPE_LINE_HEIGHT : ℚ := 0.2 * inchQ

def ALT_BOX_HEIGHT : ℚ := 0.15 * inchQ

def TEXT_BOX_HEIGHT : ℚ := 1.1 * inchQ

def TEXT_PADDING : ℚ := 0.08 * inchQ

/-- Overridden constants of `gen_cards_ai.py` (the AI module redefines
`TYPE_LINE_HEIGHT`, `TITLE_HEIGHT` and `TEXT_BOX_HEIGHT` after importing the
originals). -/
def TYPE_LINE_HEIGHT_AI : ℚ := 0.14 * inchQ

def TITLE_HEIGHT_AI : ℚ := 0.3 * inchQ - 2

def TEXT_BOX_HEIGHT_AI : ℚ := 1.1 * inchQ + 24

/-! ## Data model -/

/-- A card record: the dict fields used by `draw_trading_card_front` /
`draw_trading_card_front_ai`.  Python's `card.get(key, '')` yields `""` for a
missing key, so string fields model absence as `""`; `img` defaults to the
logo path instead, so it is an `Option`. -/
structure Card where
  title : String
  cardType : String
  img : Option String
  action : String
  alt : String
  detail : String
deriving DecidableEq, Repr

/-- A nametag record (`name`, `Role`, `Tagline_Mod` columns of
`create_nametags`). -/
structure Tag where
  name : String
  role : String
  tagline : String
deriving DecidableEq, Repr

/-! ## Page tiler (`print_trading_cards` / `print_trading_cards_ai` /
`create_nametags`) -/

/-- The `get_xy` helper of `print_trading_cards` (gen_cards.py):
`row = idx // 3`, `col = idx % 3`,
`x = left + col*(CARD_WIDTH+gap)`, `y = letter[1] - top - (row+1)*CARD_HEIGHT - row*gap`
with `left = top = 0.3*inch`, `gap = 0.2*inch`. -/
def cardGetXY (idx : ℕ) : ℚ × ℚ :=
  (0.3 * inchQ + ((idx % 3 : ℕ) : ℚ) * (CARD_WIDTH + 0.2 * inchQ),
   letterH - 0.3 * inchQ - (((idx / 3 : ℕ) : ℚ) + 1) * CARD_HEIGHT
     - ((idx / 3 : ℕ) : ℚ) * (0.2 * inchQ))

/-- The `get_xy` helper of `print_trading_cards_ai` (gen_cards_ai.py), same
formula with `left = top = 0.15*inch`, `gap = 0.05*inch`. -/
def aiGetXY (idx : ℕ) : ℚ × ℚ :=
  (0.15 * inchQ + ((idx % 3 : ℕ) : ℚ) * (CARD_WIDTH + 0.05 * inchQ),
   letterH - 0.15 * inchQ - (((idx / 3 : ℕ) : ℚ) + 1) * CARD_HEIGHT
     - ((idx / 3 : ℕ) : ℚ) * (0.05 * inchQ))

/-- One page of a front or back pass: each drawn unit is recorded with its
page-local index (the `idx` of `enumerate(cards[p:p+9])`), the card record and
the `get_xy idx` coordinate. -/
def pagePlacements (gxy : ℕ → ℚ × ℚ) (chunk : List Card) : List (ℕ × Card × (ℚ × ℚ)) :=
  (enumFrom 0 chunk).map (fun e => (e.1, e.2, gxy e.1))

/-- One full pass (front or back) of `print_trading_cards`: the cards are cut
into batches of `3*3 = 9` (`for p in range(0, len(cards), 9)`), each batch
becoming one page (a `showPage()` ends every batch, including a final partial
one). -/
def facePass (gxy : ℕ → ℚ × ℚ) (cards : List Card) : List (List (ℕ × Card × (ℚ × ℚ))) :=
  (chunksOf 8 cards).map (pagePlacements gxy)

inductive Face where
  | front
  | back
deriving DecidableEq, Repr

structure DocPage where
  face : Face
  items : List (ℕ × Card × (ℚ × ℚ))
deriving DecidableEq, Repr

/-- The whole document emitted by `print_trading_cards`: the complete front
pass followed by the complete back pass (the back pass re-traverses the cards
in the same order with the same `get_xy`). -/
def printTradingCardsDoc (gxy : ℕ → ℚ × ℚ) (cards : List Card) : List DocPage :=
  (facePass gxy cards).map (fun pg => ⟨Face.front, pg⟩)
    ++ (facePass gxy cards).map (fun pg => ⟨Face.back, pg⟩)

/-- Nametag sheet constants of `create_nametags` (generate.py):
`margin = 5*mm`, nametag is 3.4 x 3.4 inches, 2 columns x 3 rows, zero gaps. -/
def NTAG_MARGIN : ℚ := 5 * mmQ

def NTAG_W : ℚ := 3.4 * inchQ

def NTAG_H : ℚ := 3.4 * inchQ

/-- Placement of nametag number `index` in `create_nametags`:
`x = x_positions[index % 2]`, `y = y_positions[(index // 2) % 3]` with
`x_positions[i] = margin + i*(w + 0)` and
`y_positions[i] = page_height - margin - (i+1)*h`. -/
def nametagGetXY (index : ℕ) : ℚ × ℚ :=
  (NTAG_MARGIN + ((index % 2 : ℕ) : ℚ) * (NTAG_W + 0),
   letterH - NTAG_MARGIN - (((index / 2 % 3 : ℕ) : ℚ) + 1) * NTAG_H)

/-- The pages of `create_nametags`: tags are drawn in order at
`nametagGetXY` of their global index, with `showPage()` after every full
batch of `2*3 = 6` and a final `showPage()` for a trailing partial batch. -/
def createNametagsPages (tags : List Tag) : List (List (ℕ × Tag × (ℚ × ℚ))) :=
  chunksOf 5 ((enumFrom 0 tags).map (fun e => (e.1, e.2, nametagGetXY e.1)))

/-! ## Text metrics model

ReportLab's `canvas.stringWidth(text, font, size)` returns the sum of the
glyphs' advance widths scaled by the font size.  The TTF files are not in the
repository, so the advance width of a character at font size 1 is a parameter
`cw : Char → ℚ`; `modelCW` is a concrete instance (every glyph 0.6 em wide)
used for closed evaluations. -/

/-- Width of a string at font size 1: sum of per-character advance widths. -/
def sumW (cw : Char → ℚ) (s : String) : ℚ := (s.data.map cw).sum

/-- Model of `c.stringWidth(s, font, fontSize)`: linear in the font size. -/
def stringWidth (cw : Char → ℚ) (s : String) (fontSize : ℚ) : ℚ := fontSize * sumW cw s

/-- Concrete metric instance: every character 3/5 em wide. -/
def modelCW : Char → ℚ := fun _ => 3 / 5

theorem sum_map_const (l : List Char) (c : ℚ) :
    (l.map (fun _ => c)).sum = (l.length : ℚ) * c := by
  induction l with
  | nil => simp
  | cons a t ih => simp [ih]; ring

/-- In the concrete metric, a string's width at size 1 is 3/5 per character. -/
theorem sumW_modelCW (s : String) : sumW modelCW s = (s.length : ℚ) * (3 / 5) := by
  unfold sumW modelCW
  exact sum_map_const s.data (3 / 5)

/-! ## Text-Fit Engine (generate.py) -/

/-- Python's `str.split()` whitespace set. -/
def pyIsSpace (c : Char) : Bool :=
  c == ' ' || c == '\t' || c == '\n' || c == '\r' || c == '\x0b' || c == '\x0c'

/-- Helper for `pySplit`: accumulates the current word reversed. -/
def pySplitAux (cur : List Char) : List Char → List String
  | [] => if cur.isEmpty then [] else [String.mk cur.reverse]
  | c :: cs =>
    if pyIsSpace c then
      if cur.isEmpty then pySplitAux [] cs
      else String.mk cur.reverse :: pySplitAux [] cs
    else pySplitAux (c :: cur) cs

/-- Python's `text.split()`: maximal runs of non-whitespace characters. -/
def pySplit (s : String) : List String := pySplitAux [] s.data

/-- Python's `" ".join(line)`. -/
def joinSp : List String → String
  | [] => ""
  | [w] => w
  | w :: ws => w ++ " " ++ joinSp ws

/-- One iteration of the `for word in words` loop of `draw_multiline_text`:
append the word to the current line; if the joined line is now wider than
`max_width`, pop the word, flush the line and start a new line with the word.
The state is `(lines, line)`, lines kept as word lists (the code joins a line
exactly when it is flushed or drawn). -/
def wrapStep (lw : List String → ℚ) (maxw : ℚ) (st : List (List String) × List String)
    (w : String) : List (List String) × List String :=
  if maxw < lw (st.2 ++ [w]) then (st.1 ++ [st.2], [w]) else (st.1, st.2 ++ [w])

/-- The greedy wrap of `draw_multiline_text`: fold `wrapStep` over the words,
then flush the trailing line if non-empty (`if line: lines.append(...)`). -/
def wrapWords (lw : List String → ℚ) (maxw : ℚ) (ws : List String) : List (List String) :=
  let st := ws.foldl (wrapStep lw maxw) ([], [])
  if st.2.isEmpty then st.1 else st.1 ++ [st.2]

/-- Width of a drawn line: `c.stringWidth(" ".join(line), font, font_size)`. -/
def lineWidth (cw : Char → ℚ) (fontSize : ℚ) (line : List String) : ℚ :=
  stringWidth cw (joinSp line) fontSize

/-- The list of line strings produced (and then drawn) by
`draw_multiline_text(c, text, max_width, x, y, font, font_size)`. -/
def draw_multiline_text_lines (cw : Char → ℚ) (fontSize maxw : ℚ) (text : String) :
    List String :=
  (wrapWords (lineWidth cw fontSize) maxw (pySplit text)).map joinSp

/-- The font-size shrink loop of `draw_nametag`:
`while width > maxw and size > minSize: size -= 1` with
`width = stringWidth(name, font, size) = w1 * size`.  `start` is the current
size (initially the configured maximum). -/
def fitLoop (w1 maxw : ℚ) (minSize : ℕ) : ℕ → ℕ
  | 0 => 0
  | s + 1 =>
    if maxw < w1 * ((s + 1 : ℕ) : ℚ) ∧ minSize < s + 1 then fitLoop w1 maxw minSize s
    else s + 1

/-- The available width for the name/tagline/role on a nametag:
`3.4*inch - 10*mm`. -/
def NTAG_TEXT_MAX : ℚ := NTAG_W - 10 * mmQ

/-- The name block of `draw_nametag`: the chosen font size (shrink loop from
22 down to 16), whether the word-wrap branch is taken (`len(name) > 21`), and
the drawn line strings. -/
def nameLayout (cw : Char → ℚ) (name : String) : ℕ × Bool × List String :=
  let size := fitLoop (sumW cw name) NTAG_TEXT_MAX 16 22
  if name.length > 21 then
    (size, true, draw_multiline_text_lines cw ((size : ℕ) : ℚ) NTAG_TEXT_MAX name)
  else
    (size, false, [name])

/-! ## Card renderer (gen_cards.py / gen_cards_ai.py)

Drawing is modelled as a list of drawing operations, in canvas-call order.
Pen state calls (`setFont`, `setFillColor`, `setStrokeColor`, `setLineWidth`,
`setDash`, `saveState`/`translate`/`rotate`/`restoreState`) are folded into
the geometric operations they configure: each text op carries its font size,
each rect op its position and extent.  Image loading is the only fallible
operation (`c.drawImage` raises when the asset is missing or undecodable);
it is modelled by a loader parameter `ld : String → Option Unit`. -/

inductive DrawOp where
  | roundRect (x y w h r : ℚ)
  | rect (x y w h : ℚ)
  | circle (cx cy r : ℚ)
  | drawString (s : String) (x y size : ℚ)
  | drawCentred (s : String) (x y size : ℚ)
  | drawRight (s : String) (x y size : ℚ)
  | drawImage (path : String) (x y w h : ℚ)
  | drawPara (s : String) (x size : ℚ)
deriving DecidableEq, Repr

/-- Font size of the action paragraph in `draw_trading_card_front`:
`>200 chars → 8`, `>100 → 9`, else `10`. -/
def actionFontSize (action : String) : ℚ :=
  if action.length > 200 then 8 else if action.length > 100 then 9 else 10

/-- `draw_trading_card_front(c, x, y, card, logo_path)` of gen_cards.py as the
list of emitted drawing operations.  The `try: drawImage except:` block
becomes a match on the loader; on failure the placeholder box and the
centred `"IMAGE"` label are drawn instead, and rendering continues (the
function is total).  The paragraph's vertical position depends on
`para.height`, computed inside ReportLab, and is not modelled. -/
def drawTradingCardFront (ld : String → Option Unit) (x y : ℚ) (card : Card)
    (logoPath : String) : List DrawOp :=
  let content_x := x + MARGIN
  let content_y := y + MARGIN
  let content_width := CARD_WIDTH - 2 * MARGIN
  let content_height := CARD_HEIGHT - 2 * MARGIN
  let title_y := content_y + content_height - TITLE_HEIGHT
  let type_y := title_y - TYPE_LINE_HEIGHT
  let art_height := content_height - TITLE_HEIGHT - TYPE_LINE_HEIGHT
    - ALT_BOX_HEIGHT - TEXT_BOX_HEIGHT
  let art_y := type_y - art_height
  let img_path := card.img.getD logoPath
  let img_w := content_width - 2 * TEXT_PADDING
  let img_h := art_height - 2 * TEXT_PADDING
  let img_x := content_x + TEXT_PADDING
  let img_y := art_y + TEXT_PADDING
  let alt_box_y := art_y - ALT_BOX_HEIGHT
  [DrawOp.roundRect x y CARD_WIDTH CARD_HEIGHT 8,
   DrawOp.rect content_x title_y content_width TITLE_HEIGHT,
   DrawOp.drawCentred card.title (content_x + content_width / 2)
     (title_y + TITLE_HEIGHT / 2 - 6) 16,
   DrawOp.rect content_x type_y content_width TYPE_LINE_HEIGHT,
   DrawOp.drawString card.cardType (content_x + TEXT_PADDING)
     (type_y + TYPE_LINE_HEIGHT / 2 - 5) 12]
  ++ (match ld img_path with
      | some _ => [DrawOp.drawImage img_path img_x img_y img_w img_h]
      | none =>
        [DrawOp.rect img_x img_y img_w img_h,
         DrawOp.drawCentred "IMAGE" (img_x + img_w / 2) (img_y + img_h / 2) 10])
  ++ (if card.alt ≠ "" then
        [DrawOp.rect content_x alt_box_y content_width ALT_BOX_HEIGHT,
         DrawOp.drawCentred card.alt (content_x + content_width / 2)
           (alt_box_y + ALT_BOX_HEIGHT / 2 - 4) 9]
      else [])
  ++ [DrawOp.rect content_x content_y content_width TEXT_BOX_HEIGHT]
  ++ (if card.action ≠ "" then
        [DrawOp.drawPara card.action (content_x + TEXT_PADDING) (actionFontSize card.action)]
      else [])
  ++ (if card.detail ≠ "" then
        [DrawOp.drawCentred card.detail (content_x + content_width / 2)
           (content_y - TEXT_PADDING) 6]
      else [])

/-- `draw_trading_card_back(c, x, y, card, logo_path)` of gen_cards.py. -/
def drawTradingCardBack (ld : String → Option Unit) (x y : ℚ) (logoPath : String) :
    List DrawOp :=
  let content_x := x + MARGIN
  let content_y := y + MARGIN
  let content_width := CARD_WIDTH - 2 * MARGIN
  let content_height := CARD_HEIGHT - 2 * MARGIN
  let logo_size := 1.2 * inchQ
  let logo_x := content_x + (content_width - logo_size) / 2
  let logo_y := content_y + (content_height - logo_size) / 2
  let corner_size := 0.15 * inchQ
  [DrawOp.roundRect x y CARD_WIDTH CARD_HEIGHT 8]
  ++ (match ld logoPath with
      | some _ => [DrawOp.drawImage logoPath logo_x logo_y logo_size logo_size]
      | none =>
        [DrawOp.drawCentred "CARD" (x + CARD_WIDTH / 2) (y + CARD_HEIGHT / 2) 24,
         DrawOp.drawCentred "BACK" (x + CARD_WIDTH / 2) (y + CARD_HEIGHT / 2 - 30) 16])
  ++ [DrawOp.circle (content_x + corner_size) (content_y + content_height - corner_size)
        (corner_size / 3),
      DrawOp.circle (content_x + content_width - corner_size)
        (content_y + content_height - corner_size) (corner_size / 3),
      DrawOp.circle (content_x + corner_size) (content_y + corner_size) (corner_size / 3),
      DrawOp.circle (content_x + content_width - corner_size) (content_y + corner_size)
        (corner_size / 3)]

/-- Font size of the action paragraph in `draw_trading_card_front_ai`
(10% smaller): `>200 → 7`, `>100 → 8`, else `9`. -/
def aiActionFontSize (action : String) : ℚ :=
  if action.length > 200 then 7 else if action.length > 100 then 8 else 9

/-- Zero-padded card number, Python's `f"#{card_index:03d}"`. -/
def cardNumber (n : ℕ) : String :=
  "#" ++ (if n < 10 then "00" ++ toString n else if n < 100 then "0" ++ toString n
          else toString n)

/-- `draw_trading_card_front_ai(c, x, y, card, logo_path, card_index)` of
gen_cards_ai.py, as the list of emitted drawing operations (AI constant
overrides, image drawn first and expanded, combined type/alt box, always a
card number at the bottom). -/
def drawTradingCardFrontAI (ld : String → Option Unit) (x y : ℚ) (card : Card)
    (logoPath : String) (cardIndex : ℕ) : List DrawOp :=
  let content_x := x + MARGIN
  let content_y := y + MARGIN
  let content_width := CARD_WIDTH - 2 * MARGIN
  let content_height := CARD_HEIGHT - 2 * MARGIN
  let title_y := content_y + content_height - TITLE_HEIGHT_AI
  let expanded_title_x := content_x - (-1)
  let expanded_title_width := content_width + 2 * (-1)
  let type_y := title_y - TYPE_LINE_HEIGHT_AI - 1
  let text_box_top := content_y + TEXT_BOX_HEIGHT_AI
  let img_bottom := if card.alt ≠ "" then text_box_top + ALT_BOX_HEIGHT else text_box_top
  let base_img_w := content_width
  let base_img_h := (type_y - img_bottom) + TYPE_LINE_HEIGHT_AI + 4
  let scaled_img_w := base_img_w * 1.05
  let scaled_img_h := base_img_h * 1.05
  let img_w := scaled_img_w - 2 * 0.25
  let img_h := scaled_img_h
  let img_x := content_x + 0.25 - (scaled_img_w - base_img_w) / 2
  let img_y := img_bottom - (scaled_img_h - base_img_h) / 2 - 4 + 6
  let img_path := card.img.getD logoPath
  let alt_box_y := img_bottom - 4
  let alt_box_height := ALT_BOX_HEIGHT + 4
  let alt_text_y := alt_box_y + alt_box_height / 2 - 3
  [DrawOp.roundRect x y CARD_WIDTH CARD_HEIGHT 8]
  ++ (match ld img_path with
      | some _ => [DrawOp.drawImage img_path img_x img_y img_w img_h]
      | none =>
        [DrawOp.rect img_x img_y img_w img_h,
         DrawOp.drawCentred "IMAGE" (img_x + img_w / 2) (img_y + img_h / 2) 9])
  ++ [DrawOp.rect expanded_title_x title_y expanded_title_width TITLE_HEIGHT_AI,
      DrawOp.drawString card.title (expanded_title_x + TEXT_PADDING)
        (title_y + TITLE_HEIGHT_AI / 2 - 5) 14]
  ++ (if card.alt ≠ "" ∨ card.cardType ≠ "" then
        [DrawOp.rect content_x alt_box_y content_width alt_box_height]
        ++ (if card.cardType ≠ "" then
              [DrawOp.drawString card.cardType (content_x + TEXT_PADDING) alt_text_y 8]
            else [])
        ++ (if card.alt ≠ "" then
              [DrawOp.drawRight card.alt (content_x + content_width - TEXT_PADDING)
                 alt_text_y 8]
            else [])
      else [])
  ++ [DrawOp.rect content_x content_y content_width TEXT_BOX_HEIGHT_AI]
  ++ (if card.action ≠ "" then
        [DrawOp.drawPara card.action (content_x + TEXT_PADDING) (aiActionFontSize card.action)]
      else [])
  ++ [DrawOp.drawString (cardNumber cardIndex) (content_x + TEXT_PADDING)
        (content_y - TEXT_PADDING + 1) 5]
  ++ (if card.detail ≠ "" then
        [DrawOp.drawRight card.detail (content_x + content_width - TEXT_PADDING)
           (content_y - TEXT_PADDING + 1) 5]
      else [])

/-! ## Nametag renderer (generate.py)

`draw_nametag` calls `c.drawImage` twice (watermark and corner logo) with no
surrounding `try`/`except`, so a missing or undecodable logo raises out of
the call; the result type is therefore `Except`. -/

inductive ImgError where
  | load (path : String)
deriving DecidableEq, Repr

/-- The drawing operations of
`draw_multiline_text(c, text, max_width, x, y, font, font_size)` together
with the returned new y position: the block is centred vertically around `y`,
each line centred horizontally in `max_width`. -/
def draw_multiline_text_ops (cw : Char → ℚ) (x y maxw fontSize : ℚ) (text : String) :
    List DrawOp × ℚ :=
  let lines := draw_multiline_text_lines cw fontSize maxw text
  let lineH := fontSize + 2
  let totalH := (lines.length : ℚ) * lineH
  let startY := y - totalH / 2 + lineH / 2
  ((enumFrom 0 lines).map (fun e =>
      DrawOp.drawString e.2 (x + (maxw - stringWidth cw e.2 fontSize) / 2)
        (startY - (e.1 : ℚ) * lineH) fontSize),
   startY - (lines.length : ℚ) * lineH)

/-- `draw_nametag(c, x, y, name, role, tagline, year, logo_path)` of
generate.py.  The watermark `drawImage` happens inside a translated/rotated
graphics state (the affine transform is not modelled; the op records the
call's literal arguments); both `drawImage` calls raise when the logo asset
cannot be loaded. -/
def draw_nametag (cw : Char → ℚ) (ld : String → Option Unit) (x y : ℚ)
    (name role tagline yearStr logoPath : String) : Except ImgError (List DrawOp) := do
  let logo_size := 2.5 * inchQ
  if (ld logoPath).isNone then throw (ImgError.load logoPath)
  let watermark := [DrawOp.drawImage logoPath (-(logo_size / 2)) (-(logo_size / 2))
    logo_size logo_size]
  let border := [DrawOp.rect x y NTAG_W NTAG_H]
  let nameSize := fitLoop (sumW cw name) NTAG_TEXT_MAX 16 22
  let text_y0 := y + 2.6 * inchQ
  let nameBlock :=
    if name.length > 21 then
      draw_multiline_text_ops cw (x + 5 * mmQ) text_y0 NTAG_TEXT_MAX ((nameSize : ℕ) : ℚ) name
    else
      ([DrawOp.drawString name
          (x + (NTAG_W - stringWidth cw name ((nameSize : ℕ) : ℚ)) / 2) text_y0
          ((nameSize : ℕ) : ℚ)],
       text_y0 - (((nameSize : ℕ) : ℚ) + 2))
  let tagSize := fitLoop (sumW cw tagline) NTAG_TEXT_MAX 12 16
  let text_y2 := nameBlock.2 - 0.5 * inchQ
  let tagOps := [DrawOp.drawString tagline
    (x + (NTAG_W - stringWidth cw tagline ((tagSize : ℕ) : ℚ)) / 2) text_y2
    ((tagSize : ℕ) : ℚ)]
  let text_y3 := text_y2 - 0.5 * inchQ
  let roleBlock :=
    if role.length > 21 then
      draw_multiline_text_ops cw (x + 5 * mmQ) text_y3 NTAG_TEXT_MAX 14 role
    else
      ([DrawOp.drawString role (x + (NTAG_W - stringWidth cw role 14) / 2) text_y3 14],
       text_y3 - (14 + 2))
  let yearOps := [DrawOp.drawString yearStr (x + 5 * mmQ) (y + 5 * mmQ) 14]
  if (ld logoPath).isNone then throw (ImgError.load logoPath)
  let logoOps := [DrawOp.drawImage logoPath (x + NTAG_W - 1 * inchQ - 5 * mmQ)
    (y + 5 * mmQ) (1 * inchQ) (1 * inchQ)]
  pure (watermark ++ border ++ nameBlock.1 ++ tagOps ++ roleBlock.1 ++ yearOps ++ logoOps)

/-! ## AI image post-processing (gen_cards_ai.py) -/

/-- A PIL crop box `(left, top, left+width, top+height)`. -/
structure CropSpec where
  left : ℕ
  top : ℕ
  width : ℕ
  height : ℕ
deriving DecidableEq, Repr

/-- `_process_image_for_card`: centre-weighted crop to a 5:3 aspect ratio
followed by an unconditional `resize((1500, 900))`.  Python's float
comparison `w/h > 5/3` is modelled exactly as `3*w > 5*h`, and
`int(h * 5/3)` / `int(w * 3/5)` as the natural-number divisions `5*h/3` /
`3*w/5` (exact for all realistic pixel sizes).  Returns the crop box and the
final output dimensions. -/
def processImageForCard (w h : ℕ) : CropSpec × (ℕ × ℕ) :=
  let crop : CropSpec :=
    if 3 * w > 5 * h then
      let nw := 5 * h / 3
      ⟨(w - nw) / 2, 0, nw, h⟩
    else if 3 * w < 5 * h then
      let nh := 3 * w / 5
      ⟨0, (h - nh) / 2, w, nh⟩
    else ⟨0, 0, w, h⟩
  (crop, (1500, 900))

/-- The card-type → background colour table of `_create_simple_background`. -/
def typeColors : List (String × String) :=
  [("Attack", "#8B0000"), ("Defense", "#000080"), ("Hacker", "#006400"),
   ("Burninator", "#FF4500"), ("Special", "#4B0082"),
   ("Alleged Hacker", "#2F4F4F"), ("Space-Human", "#191970")]

/-- `_create_simple_background(card_type)`: a 1500x900 solid background in
the type's mapped colour, defaulting to dark gray `#2F2F2F`. -/
def createSimpleBackground (cardType : String) : (ℕ × ℕ) × String :=
  ((1500, 900), (typeColors.lookup cardType).getD "#2F2F2F")

/-! ## Properties of the shrink loop and the greedy wrap -/

/-- Characterisation of the `while width > maxw and size > minSize: size -= 1`
loop: the result stays in `[minSize, start]`; if some size in the range fits
then the result fits and dominates every fitting size (the loop stops at the
first fitting size counting down); if no size fits the result is `minSize`. -/
theorem fitLoop_spec (w1 maxw : ℚ) (minSize : ℕ) (hmin : 0 < minSize) :
    ∀ start, minSize ≤ start →
      (minSize ≤ fitLoop w1 maxw minSize start ∧ fitLoop w1 maxw minSize start ≤ start) ∧
      (∀ k, minSize ≤ k → k ≤ start → w1 * (k : ℚ) ≤ maxw →
        w1 * ((fitLoop w1 maxw minSize start : ℕ) : ℚ) ≤ maxw ∧
          k ≤ fitLoop w1 maxw minSize start) ∧
      ((∀ k, minSize ≤ k → k ≤ start → maxw < w1 * (k : ℚ)) →
        fitLoop w1 maxw minSize start = minSize) := by
  intro start
  induction start with
  | zero => intro h; omega
  | succ s ih =>
    intro hle
    rw [fitLoop]
    by_cases hc : maxw < w1 * ((s + 1 : ℕ) : ℚ) ∧ minSize < s + 1
    · rw [if_pos hc]
      have hs : minSize ≤ s := by omega
      obtain ⟨hb, hfit, hnofit⟩ := ih hs
      refine ⟨⟨hb.1, by omega⟩, ?_, ?_⟩
      · intro k hk1 hk2 hkfit
        rcases Nat.lt_or_ge k (s + 1) with hk | hk
        · exact hfit k hk1 (by omega) hkfit
        · exfalso
          have : k = s + 1 := by omega
          subst this
          exact absurd hkfit (not_le.mpr hc.1)
      · intro hall
        exact hnofit fun k h1 h2 => hall k h1 (by omega)
    · rw [if_neg hc]
      refine ⟨⟨hle, le_refl _⟩, ?_, ?_⟩
      · intro k hk1 hk2 hkfit
        refine ⟨?_, hk2⟩
        rcases not_and_or.mp hc with hA | hB
        · exact not_lt.mp hA
        · have hms : minSize = s + 1 := by omega
          have hks : k = s + 1 := by omega
          rw [← hks]; exact hkfit
      · intro hall
        rcases not_and_or.mp hc with hA | hB
        · exact absurd (hall (s + 1) hle (le_refl _)) hA
        · omega

/-- Width at font size 1 is additive over string concatenation
(`stringWidth` sums advance widths). -/
theorem sumW_append (cw : Char → ℚ) (a b : String) :
    sumW cw (a ++ b) = sumW cw a + sumW cw b := by
  simp [sumW, String.data_append]

theorem sumW_nonneg (cw : Char → ℚ) (hcw : ∀ c, 0 ≤ cw c) (s : String) :
    0 ≤ sumW cw s := by
  apply List.sum_nonneg
  intro x hx
  simp only [List.mem_map] at hx
  obtain ⟨c, _, rfl⟩ := hx
  exact hcw c

/-- Unfolding `" ".join` over an appended last word. -/
theorem joinSp_append_singleton (l : List String) (w : String) :
    joinSp (l ++ [w]) = if l.isEmpty then w else joinSp l ++ " " ++ w := by
  induction l with
  | nil => simp [joinSp]
  | cons a t ih =>
    cases t with
    | nil => simp [joinSp]
    | cons b t2 =>
      simp only [List.cons_append] at ih ⊢
      rw [show joinSp (a :: b :: (t2 ++ [w])) = a ++ " " ++ joinSp (b :: (t2 ++ [w])) from rfl]
      rw [ih]
      simp only [List.isEmpty_cons, Bool.false_eq_true, if_false]
      rw [show joinSp (a :: b :: t2) = a ++ " " ++ joinSp (b :: t2) from rfl]
      simp [String.append_assoc]

/-- Appending a word to a line cannot make it narrower than the word alone
(all advance widths are non-negative). -/
theorem lineWidth_word_le (cw : Char → ℚ) (hcw : ∀ c, 0 ≤ cw c) (fs : ℚ) (hfs : 0 ≤ fs)
    (l : List String) (w : String) :
    lineWidth cw fs [w] ≤ lineWidth cw fs (l ++ [w]) := by
  unfold lineWidth stringWidth
  apply mul_le_mul_of_nonneg_left _ hfs
  rw [joinSp_append_singleton, show joinSp [w] = w from rfl]
  by_cases he : l.isEmpty
  · rw [if_pos he]
  · rw [if_neg he, sumW_append, sumW_append]
    have h1 : 0 ≤ sumW cw (joinSp l) := sumW_nonneg cw hcw _
    have h2 : 0 ≤ sumW cw " " := sumW_nonneg cw hcw _
    linarith

/-- Appending a word to a line cannot make it narrower than the line alone. -/
theorem lineWidth_le_append (cw : Char → ℚ) (hcw : ∀ c, 0 ≤ cw c) (fs : ℚ) (hfs : 0 ≤ fs)
    (l : List String) (w : String) :
    lineWidth cw fs l ≤ lineWidth cw fs (l ++ [w]) := by
  unfold lineWidth stringWidth
  apply mul_le_mul_of_nonneg_left _ hfs
  rw [joinSp_append_singleton]
  by_cases he : l.isEmpty
  · have hl : l = [] := List.isEmpty_iff.mp he
    subst hl
    rw [if_pos he, show joinSp [] = "" from rfl, show sumW cw "" = 0 from rfl]
    exact sumW_nonneg cw hcw w
  · rw [if_neg he, sumW_append, sumW_append]
    have h2 : 0 ≤ sumW cw " " := sumW_nonneg cw hcw _
    have h3 : 0 ≤ sumW cw w := sumW_nonneg cw hcw _
    linarith

theorem wrapStep_pos {lw : List String → ℚ} {maxw : ℚ}
    {st : List (List String) × List String} {w : String}
    (hc : maxw < lw (st.2 ++ [w])) :
    wrapStep lw maxw st w = (st.1 ++ [st.2], [w]) := by
  unfold wrapStep; rw [if_pos hc]

theorem wrapStep_neg {lw : List String → ℚ} {maxw : ℚ}
    {st : List (List String) × List String} {w : String}
    (hc : ¬ maxw < lw (st.2 ++ [w])) :
    wrapStep lw maxw st w = (st.1, st.2 ++ [w]) := by
  unfold wrapStep; rw [if_neg hc]

/-- The fold of `wrapStep` keeps every processed word, in order: the words of
the flushed lines followed by the words of the current line are the initial
state's words followed by all processed words. -/
theorem wrapFold_flatten (lw : List String → ℚ) (maxw : ℚ) :
    ∀ (ws : List String) (st : List (List String) × List String),
      (ws.foldl (wrapStep lw maxw) st).1.flatten ++ (ws.foldl (wrapStep lw maxw) st).2 =
        st.1.flatten ++ st.2 ++ ws := by
  intro ws
  induction ws with
  | nil => intro st; simp
  | cons w t ih =>
    intro st
    rw [List.foldl_cons, ih]
    by_cases hc : maxw < lw (st.2 ++ [w])
    · rw [wrapStep_pos hc]
      simp [List.flatten_append, List.append_assoc]
    · rw [wrapStep_neg hc]
      simp [List.append_assoc]

/-- The current line is non-empty after processing at least one word (the
`else` keeps it non-empty, a flush restarts it with the overflowing word). -/
theorem wrapFold_snd_ne (lw : List String → ℚ) (maxw : ℚ) :
    ∀ (ws : List String) (st : List (List String) × List String),
      (st.2 ≠ [] ∨ ws ≠ []) → (ws.foldl (wrapStep lw maxw) st).2 ≠ [] := by
  intro ws
  induction ws with
  | nil =>
    intro st h
    rcases h with h | h
    · exact h
    · exact absurd rfl h
  | cons w t ih =>
    intro st _
    rw [List.foldl_cons]
    apply ih
    left
    by_cases hc : maxw < lw (st.2 ++ [w])
    · rw [wrapStep_pos hc]; simp
    · rw [wrapStep_neg hc]; simp

/-- If nothing was ever flushed, every processed prefix fitted: when the
flushed-lines component is still `[]`, the current line (if anything was
processed) has width within `maxw`. -/
theorem wrapFold_fst_nil (lw : List String → ℚ) (maxw : ℚ) :
    ∀ (ws : List String) (st : List (List String) × List String),
      (st.1 = [] → st.2 = [] ∨ ¬ maxw < lw st.2) →
      ((ws.foldl (wrapStep lw maxw) st).1 = [] →
        (ws.foldl (wrapStep lw maxw) st).2 = [] ∨
          ¬ maxw < lw (ws.foldl (wrapStep lw maxw) st).2) := by
  intro ws
  induction ws with
  | nil => intro st h; exact h
  | cons w t ih =>
    intro st h
    rw [List.foldl_cons]
    apply ih
    by_cases hc : maxw < lw (st.2 ++ [w])
    · rw [wrapStep_pos hc]
      intro hnil
      exact absurd hnil (by simp)
    · rw [wrapStep_neg hc]
      intro _
      exact Or.inr hc

/-- Once the current line is non-empty, the flushed-lines component only ever
grows by non-empty lines. -/
theorem wrapFold_no_nil (lw : List String → ℚ) (maxw : ℚ) :
    ∀ (ws : List String) (st : List (List String) × List String), st.2 ≠ [] →
      ∃ added, (ws.foldl (wrapStep lw maxw) st).1 = st.1 ++ added ∧
        (∀ l ∈ added, l ≠ []) ∧ (ws.foldl (wrapStep lw maxw) st).2 ≠ [] := by
  intro ws
  induction ws with
  | nil =>
    intro st h
    exact ⟨[], by simp, by simp, h⟩
  | cons w t ih =>
    intro st h
    rw [List.foldl_cons]
    by_cases hc : maxw < lw (st.2 ++ [w])
    · rw [wrapStep_pos hc]
      obtain ⟨added, h1, h2, h3⟩ := ih (st.1 ++ [st.2], [w]) (by simp)
      refine ⟨[st.2] ++ added, ?_, ?_, h3⟩
      · rw [h1, List.append_assoc]
      · intro l hl
        rcases List.mem_append.mp hl with hl | hl
        · simp only [List.mem_singleton] at hl; subst hl; exact h
        · exact h2 l hl
    · rw [wrapStep_neg hc]
      exact ih (st.1, st.2 ++ [w]) (by simp)

/-- A word that is over-wide on its own always ends up alone: once it is the
current line, or already flushed as a line, that stays true. -/
theorem wrapFold_overwide_inv (lw : List String → ℚ) (maxw : ℚ) (w : String)
    (h2 : ∀ l w', lw l ≤ lw (l ++ [w'])) (hw : maxw < lw [w]) :
    ∀ (ws : List String) (st : List (List String) × List String),
      ([w] ∈ st.1 ∨ st.2 = [w]) →
      ([w] ∈ (ws.foldl (wrapStep lw maxw) st).1 ∨
        (ws.foldl (wrapStep lw maxw) st).2 = [w]) := by
  intro ws
  induction ws with
  | nil => intro st h; exact h
  | cons w2 t ih =>
    intro st h
    rw [List.foldl_cons]
    apply ih
    rcases h with h | h
    · by_cases hc : maxw < lw (st.2 ++ [w2])
      · rw [wrapStep_pos hc]
        left
        exact List.mem_append.mpr (Or.inl h)
      · rw [wrapStep_neg hc]; left; exact h
    · have hc : maxw < lw (st.2 ++ [w2]) := by
        rw [h]
        exact lt_of_lt_of_le hw (h2 [w] w2)
      rw [wrapStep_pos hc]
      left
      rw [h]
      exact List.mem_append.mpr (Or.inr (List.mem_singleton.mpr rfl))

/-- Every word of the input that is over-wide by itself occurs as a whole
line of the greedy wrap (never truncated, alone on its line). -/
theorem wrapWords_overwide (lw : List String → ℚ) (maxw : ℚ) (w : String)
    (h1 : ∀ l w', lw [w'] ≤ lw (l ++ [w'])) (h2 : ∀ l w', lw l ≤ lw (l ++ [w']))
    (hw : maxw < lw [w]) :
    ∀ (ws : List String) (st : List (List String) × List String), w ∈ ws →
      ([w] ∈ (ws.foldl (wrapStep lw maxw) st).1 ∨
        (ws.foldl (wrapStep lw maxw) st).2 = [w]) := by
  intro ws
  induction ws with
  | nil => intro st h; exact absurd h (List.not_mem_nil w)
  | cons w2 t ih =>
    intro st hmem
    rw [List.foldl_cons]
    rcases List.mem_cons.mp hmem with heq | hmem2
    · subst heq
      apply wrapFold_overwide_inv lw maxw w h2 hw
      have hc : maxw < lw (st.2 ++ [w]) := lt_of_lt_of_le hw (h1 st.2 w)
      rw [wrapStep_pos hc]
      right
      rfl
    · exact ih _ hmem2

/-- The greedy wrap keeps all words, in order. -/
theorem wrapWords_flatten (lw : List String → ℚ) (maxw : ℚ) (ws : List String) :
    (wrapWords lw maxw ws).flatten = ws := by
  unfold wrapWords
  have hfl := wrapFold_flatten lw maxw ws ([], [])
  simp only [List.flatten_nil, List.nil_append] at hfl
  by_cases he : (ws.foldl (wrapStep lw maxw) ([], [])).2.isEmpty
  · rw [if_pos he]
    have h0 : (ws.foldl (wrapStep lw maxw) ([], [])).2 = [] := List.isEmpty_iff.mp he
    rw [h0, List.append_nil] at hfl
    exact hfl
  · rw [if_neg he, List.flatten_append]
    simpa using hfl

/-- If the whole word list is over-wide as a single line, the greedy wrap
produces at least two lines. -/
theorem wrapWords_two_lines (lw : List String → ℚ) (maxw : ℚ) (ws : List String)
    (hne : ws ≠ []) (hwide : maxw < lw ws) : 2 ≤ (wrapWords lw maxw ws).length := by
  unfold wrapWords
  have hsnd : (ws.foldl (wrapStep lw maxw) ([], [])).2 ≠ [] :=
    wrapFold_snd_ne lw maxw ws ([], []) (Or.inr hne)
  have he : ¬ (ws.foldl (wrapStep lw maxw) ([], [])).2.isEmpty := by
    simpa [List.isEmpty_iff] using hsnd
  rw [if_neg he, List.length_append]
  suffices h : (ws.foldl (wrapStep lw maxw) ([], [])).1 ≠ [] by
    have hpos := List.length_pos.mpr h
    simp only [List.length_singleton]
    omega
  intro hfst
  have hq := wrapFold_fst_nil lw maxw ws ([], []) (fun _ => Or.inl rfl) hfst
  have hfl := wrapFold_flatten lw maxw ws ([], [])
  rw [hfst] at hfl
  simp only [List.flatten_nil, List.nil_append] at hfl
  rcases hq with hq | hq
  · rw [hfl] at hq; exact hne hq
  · rw [hfl] at hq; exact hq hwide

/-- Every over-wide word of the input ends up alone as one of the wrapped
lines. -/
theorem wrapWords_overwide_mem (lw : List String → ℚ) (maxw : ℚ) (w : String)
    (h1 : ∀ l w', lw [w'] ≤ lw (l ++ [w'])) (h2 : ∀ l w', lw l ≤ lw (l ++ [w']))
    (hw : maxw < lw [w]) (ws : List String) (hmem : w ∈ ws) :
    [w] ∈ wrapWords lw maxw ws := by
  unfold wrapWords
  have hinv := wrapWords_overwide lw maxw w h1 h2 hw ws ([], []) hmem
  by_cases he : (ws.foldl (wrapStep lw maxw) ([], [])).2.isEmpty
  · rw [if_pos he]
    rcases hinv with hinv | hinv
    · exact hinv
    · exfalso
      have h0 := List.isEmpty_iff.mp he
      rw [h0] at hinv
      exact absurd hinv.symm (List.cons_ne_nil w [])
  · rw [if_neg he]
    rcases hinv with hinv | hinv
    · exact List.mem_append.mpr (Or.inl hinv)
    · exact List.mem_append.mpr (Or.inr (by rw [hinv]; exact List.mem_singleton.mpr rfl))

/-! ## Trace lookup lemmas for the page tiler -/

/-- Unit `i` of a pass appears on page `i / 9` at within-page position
`i % 9`, recorded with local index `i % 9`, its own card record, and the
coordinate `gxy (i % 9)`. -/
theorem facePass_lookup (gxy : ℕ → ℚ × ℚ) (cards : List Card) (i : ℕ)
    (h : i < cards.length) :
    ((facePass gxy cards)[i / 9]?.bind fun pg => pg[i % 9]?) =
      some (i % 9, cards.get ⟨i, h⟩, gxy (i % 9)) := by
  unfold facePass
  rw [List.getElem?_map, chunksOf_getElem?]
  have h1 : (8 + 1) * (i / 9) ≤ i := by
    have := Nat.div_mul_le_self i 9
    omega
  rw [if_pos (by omega)]
  simp only [Option.map_some', Option.some_bind]
  unfold pagePlacements
  rw [List.getElem?_map, enumFrom_getElem?, List.getElem?_take]
  rw [if_pos (Nat.mod_lt i (by norm_num))]
  rw [List.getElem?_drop]
  have h2 : (8 + 1) * (i / 9) + i % 9 = i := by
    have := Nat.div_add_mod i 9
    omega
  rw [h2, List.getElem?_eq_getElem h]
  simp only [Option.map_some']
  rw [List.get_eq_getElem]
  norm_num

/-- Nametag `j` appears on page `j / 6` at within-page position `j % 6`,
with its global index and `nametagGetXY j`. -/
theorem createNametags_lookup (tags : List Tag) (j : ℕ) (h : j < tags.length) :
    ((createNametagsPages tags)[j / 6]?.bind fun pg => pg[j % 6]?) =
      some (j, tags.get ⟨j, h⟩, nametagGetXY j) := by
  unfold createNametagsPages
  rw [chunksOf_getElem?]
  have hlen : ((enumFrom 0 tags).map
      (fun e => (e.1, e.2, nametagGetXY e.1))).length = tags.length := by
    rw [List.length_map, enumFrom_length]
  have h1 : (5 + 1) * (j / 6) ≤ j := by
    have := Nat.div_mul_le_self j 6
    omega
  rw [hlen] at *
  rw [if_pos (by rw [hlen]; omega)]
  simp only [Option.some_bind]
  rw [List.getElem?_take, if_pos (Nat.mod_lt j (by norm_num))]
  rw [List.getElem?_drop, List.getElem?_map, enumFrom_getElem?]
  have h2 : (5 + 1) * (j / 6) + j % 6 = j := by
    have := Nat.div_add_mod j 6
    omega
  rw [h2, List.getElem?_eq_getElem h]
  simp only [Option.map_some']
  rw [List.get_eq_getElem]
  norm_num

/-! ## Claim theorems -/

/-- Card record with every optional field absent, for concrete instances. -/
def blankCard : Card := ⟨"", "", none, "", "", ""⟩

/-- Blank nametag record for concrete instances. -/
def blankTag : Tag := ⟨"", "", ""⟩

/-- Number of front-face pages of `print_trading_cards`. -/
def frontPages (cards : List Card) : ℕ :=
  ((printTradingCardsDoc cardGetXY cards).filter (fun p => p.face == Face.front)).length

/-- Number of back-face pages of `print_trading_cards`. -/
def backPages (cards : List Card) : ℕ :=
  ((printTradingCardsDoc cardGetXY cards).filter (fun p => p.face == Face.back)).length

theorem filter_face_map (fc fc2 : Face) (l : List (List (ℕ × Card × (ℚ × ℚ)))) :
    ((l.map (fun pg => (⟨fc, pg⟩ : DocPage))).filter (fun p => p.face == fc2)) =
      if fc == fc2 then l.map (fun pg => ⟨fc, pg⟩) else [] := by
  induction l with
  | nil => cases hfc : (fc == fc2) <;> simp [hfc]
  | cons a t ih =>
    cases hfc : (fc == fc2) <;> simp only [hfc] at ih <;>
      simp [List.filter_cons, hfc, ih]

/-- C1: for every list of `n` cards printed with the 3x3 grid, the number of
front-face pages is `⌈n/9⌉ = (n+8)/9`, the number of back-face pages is the
same, the total page count is `2*⌈n/9⌉`, and in particular 10 cards yield
2 front pages, 2 back pages and 4 pages in total. -/
theorem claim1_page_counts :
    (∀ cards : List Card,
       frontPages cards = (cards.length + 8) / 9 ∧
       backPages cards = (cards.length + 8) / 9 ∧
       (printTradingCardsDoc cardGetXY cards).length = 2 * ((cards.length + 8) / 9)) ∧
    (frontPages (List.replicate 10 blankCard) = 2 ∧
     backPages (List.replicate 10 blankCard) = 2 ∧
     (printTradingCardsDoc cardGetXY (List.replicate 10 blankCard)).length = 4) := by
  have hgen : ∀ cards : List Card,
      frontPages cards = (cards.length + 8) / 9 ∧
      backPages cards = (cards.length + 8) / 9 ∧
      (printTradingCardsDoc cardGetXY cards).length = 2 * ((cards.length + 8) / 9) := by
    intro cards
    have hlen : (facePass cardGetXY cards).length = (cards.length + 8) / 9 := by
      unfold facePass
      rw [List.length_map, chunksOf_length]
    refine ⟨?_, ?_, ?_⟩
    · unfold frontPages printTradingCardsDoc
      rw [List.filter_append, filter_face_map, filter_face_map]
      simp only [show (Face.front == Face.front) = true from rfl,
        show (Face.back == Face.front) = false from rfl, Bool.false_eq_true, if_true,
        if_false]
      rw [List.append_nil, List.length_map, hlen]
    · unfold backPages printTradingCardsDoc
      rw [List.filter_append, filter_face_map, filter_face_map]
      simp only [show (Face.front == Face.back) = false from rfl,
        show (Face.back == Face.back) = true from rfl, Bool.false_eq_true, if_true,
        if_false]
      rw [List.nil_append, List.length_map, hlen]
    · unfold printTradingCardsDoc
      rw [List.length_append, List.length_map, List.length_map, hlen]
      omega
  refine ⟨hgen, ?_, ?_, ?_⟩
  · have h := (hgen (List.replicate 10 blankCard)).1
    simpa using h
  · have h := (hgen (List.replicate 10 blankCard)).2.1
    simpa using h
  · have h := (hgen (List.replicate 10 blankCard)).2.2
    simpa using h

/-- C2: unit `i` sits at page `i div 9` and slot `i mod 9` of the cards pass
with absolute coordinate `left + col*(W+gap)`, `pageH - top - (row+1)*H -
row*gap` for `col = slot mod 3`, `row = slot div 3`; a page break follows
each full batch (page count `= ⌈n/9⌉`); likewise for nametags with a 2x3
grid, zero gaps and page size 6. -/
theorem claim2_grid_slots :
    (∀ (cards : List Card) (i : ℕ) (h : i < cards.length),
       ((facePass cardGetXY cards)[i / 9]?.bind fun pg => pg[i % 9]?) =
         some (i % 9, cards.get ⟨i, h⟩,
           (0.3 * inchQ + ((i % 9 % 3 : ℕ) : ℚ) * (CARD_WIDTH + 0.2 * inchQ),
            letterH - 0.3 * inchQ - (((i % 9 / 3 : ℕ) : ℚ) + 1) * CARD_HEIGHT
              - ((i % 9 / 3 : ℕ) : ℚ) * (0.2 * inchQ)))) ∧
    (∀ cards : List Card, (facePass cardGetXY cards).length = (cards.length + 8) / 9) ∧
    (∀ (tags : List Tag) (j : ℕ) (h : j < tags.length),
       ((createNametagsPages tags)[j / 6]?.bind fun pg => pg[j % 6]?) =
         some (j, tags.get ⟨j, h⟩,
           (NTAG_MARGIN + ((j % 6 % 2 : ℕ) : ℚ) * (NTAG_W + 0),
            letterH - NTAG_MARGIN - (((j % 6 / 2 : ℕ) : ℚ) + 1) * NTAG_H))) ∧
    (∀ tags : List Tag, (createNametagsPages tags).length = (tags.length + 5) / 6) := by
  refine ⟨?_, ?_, ?_, ?_⟩
  · intro cards i h
    rw [facePass_lookup cardGetXY cards i h]
    rfl
  · intro cards
    unfold facePass
    rw [List.length_map, chunksOf_length]
  · intro tags j h
    have e1 : j % 6 % 2 = j % 2 := Nat.mod_mod_of_dvd j (by norm_num)
    have e2 : j % 6 / 2 = j / 2 % 3 := by omega
    rw [e1, e2]
    exact createNametags_lookup tags j h
  · intro tags
    unfold createNametagsPages
    rw [chunksOf_length, List.length_map, enumFrom_length]

/-- Witness for C2: in a 10-card run, card 9 is on front page 1 at slot 0;
among 8 nametags, tag 7 is on page 1 at slot 1. -/
theorem claim2_witness :
    (((facePass cardGetXY (List.replicate 10 blankCard))[9 / 9]?.bind
        fun pg => pg[9 % 9]?) =
      some (9 % 9, (List.replicate 10 blankCard).get ⟨9, by decide⟩,
        (0.3 * inchQ + ((9 % 9 % 3 : ℕ) : ℚ) * (CARD_WIDTH + 0.2 * inchQ),
         letterH - 0.3 * inchQ - (((9 % 9 / 3 : ℕ) : ℚ) + 1) * CARD_HEIGHT
           - ((9 % 9 / 3 : ℕ) : ℚ) * (0.2 * inchQ)))) ∧
    (((createNametagsPages (List.replicate 8 blankTag))[7 / 6]?.bind
        fun pg => pg[7 % 6]?) =
      some (7, (List.replicate 8 blankTag).get ⟨7, by decide⟩,
        (NTAG_MARGIN + ((7 % 6 % 2 : ℕ) : ℚ) * (NTAG_W + 0),
         letterH - NTAG_MARGIN - (((7 % 6 / 2 : ℕ) : ℚ) + 1) * NTAG_H))) :=
  ⟨claim2_grid_slots.1 (List.replicate 10 blankCard) 9 (by decide),
   claim2_grid_slots.2.2.1 (List.replicate 8 blankTag) 7 (by decide)⟩

/-- C3: for every card list (and for any `get_xy`, covering both
`print_trading_cards` and `print_trading_cards_ai`), the document is the
front pages followed by the back pages — a page is a front page exactly when
its index is below `⌈n/9⌉` — and front page `p` and back page `p` carry
identical placements (same local indices, same cards, same `(x, y)`):
duplex registration. -/
theorem claim3_duplex :
    ∀ (gxy : ℕ → ℚ × ℚ) (cards : List Card),
      (printTradingCardsDoc gxy cards).length = 2 * ((cards.length + 8) / 9) ∧
      (∀ (p : ℕ) (pg : DocPage), (printTradingCardsDoc gxy cards)[p]? = some pg →
        (pg.face = Face.front ↔ p < (cards.length + 8) / 9)) ∧
      (∀ p : ℕ, p < (cards.length + 8) / 9 →
        ((printTradingCardsDoc gxy cards)[p]?.map DocPage.items =
          (printTradingCardsDoc gxy cards)[(cards.length + 8) / 9 + p]?.map DocPage.items) ∧
        (printTradingCardsDoc gxy cards)[p]?.map DocPage.face = some Face.front ∧
        (printTradingCardsDoc gxy cards)[(cards.length + 8) / 9 + p]?.map DocPage.face =
          some Face.back) := by
  intro gxy cards
  have hF : (facePass gxy cards).length = (cards.length + 8) / 9 := by
    unfold facePass
    rw [List.length_map, chunksOf_length]
  refine ⟨?_, ?_, ?_⟩
  · unfold printTradingCardsDoc
    rw [List.length_append, List.length_map, List.length_map, hF]
    omega
  · intro p pg hpg
    unfold printTradingCardsDoc at hpg
    rw [List.getElem?_append, List.length_map] at hpg
    rcases Nat.lt_or_ge p (facePass gxy cards).length with hp | hp
    · rw [if_pos hp, List.getElem?_map, List.getElem?_eq_getElem hp,
        Option.map_some'] at hpg
      have hface : pg.face = Face.front := by
        rw [← Option.some_inj.mp hpg]
      rw [hface]
      simp only [true_iff]
      omega
    · rw [if_neg (by omega), List.getElem?_map] at hpg
      cases hq : (facePass gxy cards)[p - (facePass gxy cards).length]? with
      | none => rw [hq] at hpg; exact absurd hpg (by simp)
      | some q =>
        rw [hq, Option.map_some'] at hpg
        have hface : pg.face = Face.back := by
          rw [← Option.some_inj.mp hpg]
        rw [hface]
        constructor
        · intro hcontr; exact absurd hcontr (by simp)
        · intro hcontr; omega
  · intro p hp
    have hp' : p < (facePass gxy cards).length := by omega
    have hq := List.getElem?_eq_getElem hp'
    have hfront : (printTradingCardsDoc gxy cards)[p]? =
        some ⟨Face.front, (facePass gxy cards)[p]⟩ := by
      unfold printTradingCardsDoc
      rw [List.getElem?_append, List.length_map, if_pos hp', List.getElem?_map, hq,
        Option.map_some']
    have hback : (printTradingCardsDoc gxy cards)[(cards.length + 8) / 9 + p]? =
        some ⟨Face.back, (facePass gxy cards)[p]⟩ := by
      unfold printTradingCardsDoc
      rw [List.getElem?_append, List.length_map, if_neg (by omega), List.getElem?_map]
      have hidx : (cards.length + 8) / 9 + p - (facePass gxy cards).length = p := by
        omega
      rw [hidx, hq, Option.map_some']
    rw [hfront, hback]
    exact ⟨rfl, rfl, rfl⟩

/-- Witness for C3: for the AI layout with a single card, page 0 is the front
page, page 1 the back page, with identical placements. -/
theorem claim3_witness :
    (printTradingCardsDoc aiGetXY [blankCard]).length = 2 * ((1 + 8) / 9) ∧
    ((printTradingCardsDoc aiGetXY [blankCard])[0]?.map DocPage.items =
      (printTradingCardsDoc aiGetXY [blankCard])[(1 + 8) / 9 + 0]?.map DocPage.items) ∧
    (printTradingCardsDoc aiGetXY [blankCard])[0]?.map DocPage.face = some Face.front ∧
    (printTradingCardsDoc aiGetXY [blankCard])[(1 + 8) / 9 + 0]?.map DocPage.face =
      some Face.back := by
  have h := claim3_duplex aiGetXY [blankCard]
  have h3 := h.2.2 0 (by decide)
  exact ⟨h.1, h3.1, h3.2.1, h3.2.2⟩

/-- C4 (amended): only the nametag renderer fits text to its box: the name
font size is the largest size in `[16, 22]` whose measured width fits
`3.4in - 10mm`, or 16 if none fits.  Trading-card titles are drawn at the
fixed font size 16 (`draw_trading_card_front`) resp. 14
(`draw_trading_card_front_ai`) with no width fitting, so their measured width
can exceed the title box. -/
theorem claim4_title_sizing :
    (∀ (cw : Char → ℚ) (name : String),
      (16 ≤ fitLoop (sumW cw name) NTAG_TEXT_MAX 16 22 ∧
        fitLoop (sumW cw name) NTAG_TEXT_MAX 16 22 ≤ 22) ∧
      (∀ k : ℕ, 16 ≤ k → k ≤ 22 → sumW cw name * (k : ℚ) ≤ NTAG_TEXT_MAX →
        sumW cw name * ((fitLoop (sumW cw name) NTAG_TEXT_MAX 16 22 : ℕ) : ℚ) ≤
            NTAG_TEXT_MAX ∧
          k ≤ fitLoop (sumW cw name) NTAG_TEXT_MAX 16 22) ∧
      ((∀ k : ℕ, 16 ≤ k → k ≤ 22 → NTAG_TEXT_MAX < sumW cw name * (k : ℚ)) →
        fitLoop (sumW cw name) NTAG_TEXT_MAX 16 22 = 16)) ∧
    (∀ (ld : String → Option Unit) (x y : ℚ) (card : Card) (logoPath : String),
      DrawOp.drawCentred card.title (x + MARGIN + (CARD_WIDTH - 2 * MARGIN) / 2)
          (y + MARGIN + (CARD_HEIGHT - 2 * MARGIN) - TITLE_HEIGHT + TITLE_HEIGHT / 2 - 6) 16
        ∈ drawTradingCardFront ld x y card logoPath) ∧
    (∀ (ld : String → Option Unit) (x y : ℚ) (card : Card) (logoPath : String) (i : ℕ),
      DrawOp.drawString card.title (x + MARGIN - (-1) + TEXT_PADDING)
          (y + MARGIN + (CARD_HEIGHT - 2 * MARGIN) - TITLE_HEIGHT_AI
            + TITLE_HEIGHT_AI / 2 - 5) 14
        ∈ drawTradingCardFrontAI ld x y card logoPath i) := by
  refine ⟨?_, ?_, ?_⟩
  · intro cw name
    exact fitLoop_spec (sumW cw name) NTAG_TEXT_MAX 16 (by norm_num) 22 (by norm_num)
  · intro ld x y card logoPath
    unfold drawTradingCardFront
    cases ld (card.img.getD logoPath) <;> simp
  · intro ld x y card logoPath i
    unfold drawTradingCardFrontAI
    cases ld (card.img.getD logoPath) <;> simp

/-- Counterexample to C4 as stated: a 30-character title is drawn by
`draw_trading_card_front` at the fixed size 16, and its measured width
(288 points in the metric model) exceeds the 162-point title box. -/
theorem claim4_cex :
    DrawOp.drawCentred "WWWWWWWWWWWWWWWWWWWWWWWWWWWWWW"
        (0 + MARGIN + (CARD_WIDTH - 2 * MARGIN) / 2)
        (0 + MARGIN + (CARD_HEIGHT - 2 * MARGIN) - TITLE_HEIGHT + TITLE_HEIGHT / 2 - 6) 16
      ∈ drawTradingCardFront (fun _ => some ()) 0 0
        ⟨"WWWWWWWWWWWWWWWWWWWWWWWWWWWWWW", "Attack", some "img.png", "a", "b", "c"⟩
        "logo.png" ∧
    CARD_WIDTH - 2 * MARGIN < stringWidth modelCW "WWWWWWWWWWWWWWWWWWWWWWWWWWWWWW" 16 := by
  constructor
  · unfold drawTradingCardFront
    simp
  · rw [stringWidth, sumW_modelCW]
    norm_num [show ("WWWWWWWWWWWWWWWWWWWWWWWWWWWWWW".length = 30) from rfl,
      CARD_WIDTH, MARGIN, inchQ]

/-- Witness for C4: a short name fits at the chosen size, and a card title is
drawn at the fixed size 16. -/
theorem claim4_witness :
    (sumW modelCW "Bob" * ((fitLoop (sumW modelCW "Bob") NTAG_TEXT_MAX 16 22 : ℕ) : ℚ) ≤
      NTAG_TEXT_MAX) ∧
    DrawOp.drawCentred "Bob" (0 + MARGIN + (CARD_WIDTH - 2 * MARGIN) / 2)
        (0 + MARGIN + (CARD_HEIGHT - 2 * MARGIN) - TITLE_HEIGHT + TITLE_HEIGHT / 2 - 6) 16
      ∈ drawTradingCardFront (fun _ => some ()) 0 0 ⟨"Bob", "", none, "", "", ""⟩ "l" :=
  ⟨((claim4_title_sizing.1 modelCW "Bob").2.1 16 (le_refl 16) (by norm_num)
      (by rw [sumW_modelCW]
          norm_num [show ("Bob".length = 3) from rfl, NTAG_TEXT_MAX, NTAG_W, mmQ,
            inchQ])).1,
   claim4_title_sizing.2.1 (fun _ => some ()) 0 0 ⟨"Bob", "", none, "", "", ""⟩ "l"⟩

/-- C5 (amended): the nametag name engine picks a font size in `[16, 22]`,
the largest whose single-line width fits (else the minimum); but the
word-wrap fallback is taken exactly when the name is longer than 21
characters — independently of whether some size fits — otherwise the text is
drawn as the single line `[name]`. -/
theorem claim5_textfit :
    ∀ (cw : Char → ℚ) (name : String),
      ((nameLayout cw name).2.1 = true ↔ 21 < name.length) ∧
      (16 ≤ (nameLayout cw name).1 ∧ (nameLayout cw name).1 ≤ 22) ∧
      (∀ k : ℕ, 16 ≤ k → k ≤ 22 → sumW cw name * (k : ℚ) ≤ NTAG_TEXT_MAX →
        sumW cw name * (((nameLayout cw name).1 : ℕ) : ℚ) ≤ NTAG_TEXT_MAX ∧
          k ≤ (nameLayout cw name).1) ∧
      ((∀ k : ℕ, 16 ≤ k → k ≤ 22 → NTAG_TEXT_MAX < sumW cw name * (k : ℚ)) →
        (nameLayout cw name).1 = 16) ∧
      ((nameLayout cw name).2.1 = false → (nameLayout cw name).2.2 = [name]) ∧
      ((nameLayout cw name).2.1 = true →
        (nameLayout cw name).2.2 =
          draw_multiline_text_lines cw (((nameLayout cw name).1 : ℕ) : ℚ)
            NTAG_TEXT_MAX name) := by
  intro cw name
  have hspec := fitLoop_spec (sumW cw name) NTAG_TEXT_MAX 16 (by norm_num) 22 (by norm_num)
  unfold nameLayout
  by_cases h : name.length > 21
  · rw [if_pos h]
    exact ⟨by simpa using h, hspec.1,
      fun k hk1 hk2 hkfit => hspec.2.1 k hk1 hk2 hkfit, hspec.2.2,
      by simp, fun _ => rfl⟩
  · rw [if_neg h]
    exact ⟨by simpa using h, hspec.1,
      fun k hk1 hk2 hkfit => hspec.2.1 k hk1 hk2 hkfit, hspec.2.2,
      fun _ => rfl, by simp⟩

/-- Counterexample to C5 as stated: a 22-character name fits on one line at
size 16 (a size in the configured range fits), yet the engine still takes
the word-wrap branch, because the branch tests `len(name) > 21`, not
fit failure. -/
theorem claim5_cex :
    (∃ k : ℕ, 16 ≤ k ∧ k ≤ 22 ∧
      stringWidth modelCW "aaaaaaaaaaaaaaaaaaaaaa" (k : ℚ) ≤ NTAG_TEXT_MAX) ∧
    (nameLayout modelCW "aaaaaaaaaaaaaaaaaaaaaa").2.1 = true :=
  ⟨⟨16, by norm_num, by norm_num, by
      rw [stringWidth, sumW_modelCW]
      norm_num [show ("aaaaaaaaaaaaaaaaaaaaaa".length = 22) from rfl, NTAG_TEXT_MAX,
        NTAG_W, mmQ, inchQ]⟩,
   rfl⟩

/-- Witness for C5: a 23-character name takes the wrap branch, and for a
short name the chosen size fits and dominates the fitting size 16. -/
theorem claim5_witness :
    (nameLayout modelCW "aaaaaaaaaaaaaaaaaaaaaaa").2.1 = true ∧
    (sumW modelCW "Bob" * (((nameLayout modelCW "Bob").1 : ℕ) : ℚ) ≤ NTAG_TEXT_MAX ∧
      16 ≤ (nameLayout modelCW "Bob").1) :=
  ⟨(claim5_textfit modelCW "aaaaaaaaaaaaaaaaaaaaaaa").1.mpr (by decide),
   (claim5_textfit modelCW "Bob").2.2.1 16 (le_refl 16) (by norm_num)
     (by rw [sumW_modelCW]
         norm_num [show ("Bob".length = 3) from rfl, NTAG_TEXT_MAX, NTAG_W, mmQ, inchQ])⟩

/-- C6 (amended): the wrap of `draw_multiline_text` is greedy; whenever the
whitespace-normalised text (its words joined by single spaces — what a
single-line rendering would draw) is wider than `max_width` and there is at
least one word, at least 2 lines are produced; no word is ever dropped or
reordered; and a single word wider than `max_width` appears alone,
untruncated, as a line of its own.  (As stated the claim measured the raw
input string, which over-counts trailing/duplicate whitespace that
`str.split()` discards — see the counterexample.) -/
theorem claim6_wrap :
    ∀ (cw : Char → ℚ) (fs maxw : ℚ) (text : String),
      (∀ c, 0 ≤ cw c) → 0 ≤ fs →
      (draw_multiline_text_lines cw fs maxw text =
        (wrapWords (lineWidth cw fs) maxw (pySplit text)).map joinSp) ∧
      ((wrapWords (lineWidth cw fs) maxw (pySplit text)).flatten = pySplit text) ∧
      (pySplit text ≠ [] → maxw < lineWidth cw fs (pySplit text) →
        2 ≤ (draw_multiline_text_lines cw fs maxw text).length) ∧
      (∀ w ∈ pySplit text, maxw < stringWidth cw w fs →
        w ∈ draw_multiline_text_lines cw fs maxw text ∧
        [w] ∈ wrapWords (lineWidth cw fs) maxw (pySplit text)) := by
  intro cw fs maxw text hcw hfs
  refine ⟨rfl, wrapWords_flatten _ _ _, ?_, ?_⟩
  · intro hne hwide
    unfold draw_multiline_text_lines
    rw [List.length_map]
    exact wrapWords_two_lines _ _ _ hne hwide
  · intro w hw hwide
    have hmem : [w] ∈ wrapWords (lineWidth cw fs) maxw (pySplit text) := by
      apply wrapWords_overwide_mem (lineWidth cw fs) maxw w
        (fun l w' => lineWidth_word_le cw hcw fs hfs l w')
        (fun l w' => lineWidth_le_append cw hcw fs hfs l w')
        (by rw [show lineWidth cw fs [w] = stringWidth cw w fs from rfl]; exact hwide)
        (pySplit text) hw
    refine ⟨?_, hmem⟩
    unfold draw_multiline_text_lines
    exact List.mem_map.mpr ⟨[w], hmem, rfl⟩

/-- Counterexample to C6 as stated: `"ab"` followed by 30 spaces has a
measured single-line width above `max_width` (spaces have positive advance
width) and contains one word, yet `draw_multiline_text` produces one single
line, because `str.split()` discards the whitespace. -/
theorem claim6_cex :
    NTAG_TEXT_MAX < stringWidth modelCW ("ab" ++ String.mk (List.replicate 30 ' ')) 14 ∧
    pySplit ("ab" ++ String.mk (List.replicate 30 ' ')) = ["ab"] ∧
    (draw_multiline_text_lines modelCW 14 NTAG_TEXT_MAX
      ("ab" ++ String.mk (List.replicate 30 ' '))).length = 1 := by
  have hlen : ("ab" ++ String.mk (List.replicate 30 ' ')).length = 32 := by decide
  have hsplit : pySplit ("ab" ++ String.mk (List.replicate 30 ' ')) = ["ab"] := by decide
  refine ⟨?_, hsplit, ?_⟩
  · rw [stringWidth, sumW_modelCW, hlen]
    norm_num [NTAG_TEXT_MAX, NTAG_W, mmQ, inchQ]
  · unfold draw_multiline_text_lines
    rw [hsplit]
    have hlt : ¬ NTAG_TEXT_MAX < lineWidth modelCW 14 ([] ++ ["ab"]) := by
      rw [show ([] ++ ["ab"] : List String) = ["ab"] from rfl, lineWidth,
        show joinSp ["ab"] = "ab" from rfl, stringWidth, sumW_modelCW]
      norm_num [show ("ab".length = 2) from rfl, NTAG_TEXT_MAX, NTAG_W, mmQ, inchQ]
    unfold wrapWords
    rw [List.foldl_cons, List.foldl_nil, wrapStep_neg hlt]
    simp

/-- Witness for C6: a two-word text wider than the box wraps into at least
two lines. -/
theorem claim6_witness :
    2 ≤ (draw_multiline_text_lines modelCW 14 NTAG_TEXT_MAX
      "aaaaaaaaaaaaaaaa bbbbbbbbbbbbbbbb").length :=
  (claim6_wrap modelCW 14 NTAG_TEXT_MAX "aaaaaaaaaaaaaaaa bbbbbbbbbbbbbbbb"
    (fun c => by norm_num [modelCW]) (by norm_num)).2.2.1 (by decide)
    (by
      have hs : pySplit "aaaaaaaaaaaaaaaa bbbbbbbbbbbbbbbb" =
          ["aaaaaaaaaaaaaaaa", "bbbbbbbbbbbbbbbb"] := by decide
      rw [hs, lineWidth,
        show joinSp ["aaaaaaaaaaaaaaaa", "bbbbbbbbbbbbbbbb"] =
          "aaaaaaaaaaaaaaaa" ++ " " ++ "bbbbbbbbbbbbbbbb" from rfl,
        stringWidth, sumW_modelCW]
      norm_num [show (("aaaaaaaaaaaaaaaa" ++ " " ++ "bbbbbbbbbbbbbbbb").length = 33)
        from by decide, NTAG_TEXT_MAX, NTAG_W, mmQ, inchQ])

/-- The computed image rectangle of `draw_trading_card_front` (x coordinate). -/
def cardImgX (x : ℚ) : ℚ := x + MARGIN + TEXT_PADDING

/-- The computed image rectangle of `draw_trading_card_front` (y coordinate). -/
def cardImgY (y : ℚ) : ℚ :=
  y + MARGIN + (CARD_HEIGHT - 2 * MARGIN) - TITLE_HEIGHT - TYPE_LINE_HEIGHT
    - ((CARD_HEIGHT - 2 * MARGIN) - TITLE_HEIGHT - TYPE_LINE_HEIGHT - ALT_BOX_HEIGHT
      - TEXT_BOX_HEIGHT) + TEXT_PADDING

/-- The computed image rectangle of `draw_trading_card_front` (width). -/
def cardImgW : ℚ := CARD_WIDTH - 2 * MARGIN - 2 * TEXT_PADDING

/-- The computed image rectangle of `draw_trading_card_front` (height). -/
def cardImgH : ℚ :=
  CARD_HEIGHT - 2 * MARGIN - TITLE_HEIGHT - TYPE_LINE_HEIGHT - ALT_BOX_HEIGHT
    - TEXT_BOX_HEIGHT - 2 * TEXT_PADDING

/-- C7 (amended): the card renderers recover locally from a failed image
load — `draw_trading_card_front` draws a placeholder box with a centred
`"IMAGE"` label at the computed image rectangle and runs to completion (a
total function into a list of operations), `draw_trading_card_back` falls
back to decorative text — but the nametag renderer has no protection: when
the logo cannot be loaded, `draw_nametag` raises, and the exception escapes
the render call. -/
theorem claim7_placeholder :
    (∀ (ld : String → Option Unit) (x y : ℚ) (card : Card) (logoPath : String),
      ld (card.img.getD logoPath) = none →
      DrawOp.rect (cardImgX x) (cardImgY y) cardImgW cardImgH
          ∈ drawTradingCardFront ld x y card logoPath ∧
      DrawOp.drawCentred "IMAGE" (cardImgX x + cardImgW / 2) (cardImgY y + cardImgH / 2) 10
          ∈ drawTradingCardFront ld x y card logoPath) ∧
    (∀ (ld : String → Option Unit) (x y : ℚ) (logoPath : String),
      ld logoPath = none →
      DrawOp.drawCentred "CARD" (x + CARD_WIDTH / 2) (y + CARD_HEIGHT / 2) 24
        ∈ drawTradingCardBack ld x y logoPath) ∧
    (∀ (cw : Char → ℚ) (ld : String → Option Unit) (x y : ℚ)
       (name role tagline yearStr logoPath : String),
      ld logoPath = none →
      draw_nametag cw ld x y name role tagline yearStr logoPath =
        Except.error (ImgError.load logoPath)) := by
  refine ⟨?_, ?_, ?_⟩
  · intro ld x y card logoPath h
    unfold drawTradingCardFront
    refine ⟨?_, ?_⟩ <;> simp [h, cardImgX, cardImgY, cardImgW, cardImgH]
  · intro ld x y logoPath h
    unfold drawTradingCardBack
    simp [h]
  · intro cw ld x y name role tagline yearStr logoPath h
    unfold draw_nametag
    rw [h]
    rfl

/-- Counterexample to C7 as stated: with every image load failing,
`draw_nametag` does not recover — the error escapes the call. -/
theorem claim7_cex :
    draw_nametag modelCW (fun _ => none) 0 0 "A" "B" "C" "2024" "logo.png" =
      Except.error (ImgError.load "logo.png") := by
  rfl

/-- Witness for C7: a concrete failed load yields the placeholder box on a
card front and an escaping error from the nametag renderer. -/
theorem claim7_witness :
    DrawOp.rect (cardImgX 0) (cardImgY 0) cardImgW cardImgH
        ∈ drawTradingCardFront (fun _ => none) 0 0 blankCard "logo.png" ∧
    draw_nametag modelCW (fun _ => none) 0 0 "N" "R" "T" "2024" "lp" =
      Except.error (ImgError.load "lp") :=
  ⟨(claim7_placeholder.1 (fun _ => none) 0 0 blankCard "logo.png" rfl).1,
   claim7_placeholder.2.2 modelCW (fun _ => none) 0 0 "N" "R" "T" "2024" "lp" rfl⟩

/-- Recogniser for box-drawing operations (`c.rect`). -/
def isRect : DrawOp → Bool
  | .rect _ _ _ _ => true
  | _ => false

/-- The y coordinate of the alt box of `draw_trading_card_front`. -/
def cardAltBoxY (y : ℚ) : ℚ :=
  y + MARGIN + (CARD_HEIGHT - 2 * MARGIN) - TITLE_HEIGHT - TYPE_LINE_HEIGHT
    - ((CARD_HEIGHT - 2 * MARGIN) - TITLE_HEIGHT - TYPE_LINE_HEIGHT - ALT_BOX_HEIGHT
      - TEXT_BOX_HEIGHT) - ALT_BOX_HEIGHT

/-- The y coordinate of the combined type/alt box of
`draw_trading_card_front_ai` (the box sits 4 points below the image bottom,
which itself depends on whether alt text is present). -/
def aiAltBoxY (y : ℚ) (alt : String) : ℚ :=
  (if alt ≠ "" then y + MARGIN + TEXT_BOX_HEIGHT_AI + ALT_BOX_HEIGHT
   else y + MARGIN + TEXT_BOX_HEIGHT_AI) - 4

/-- C8 (amended): on `draw_trading_card_front` the alt box is rendered
exactly when `alt` is non-empty, and the detail field never produces a box
(the rects drawn are independent of `detail`); on `draw_trading_card_front_ai`
the combined type/alt box is rendered exactly when `type` or `alt` is
non-empty.  However an empty `action` does not suppress its box: the main
text box rectangle is always drawn, even when `action` is the empty
string. -/
theorem claim8_optional_boxes :
    ∀ (ld : String → Option Unit) (x y : ℚ) (card : Card) (logoPath : String) (i : ℕ),
      (DrawOp.rect (x + MARGIN) (cardAltBoxY y) (CARD_WIDTH - 2 * MARGIN) ALT_BOX_HEIGHT
          ∈ drawTradingCardFront ld x y card logoPath ↔ card.alt ≠ "") ∧
      (DrawOp.rect (x + MARGIN) (y + MARGIN) (CARD_WIDTH - 2 * MARGIN) TEXT_BOX_HEIGHT
          ∈ drawTradingCardFront ld x y card logoPath) ∧
      (∀ d : String,
        (drawTradingCardFront ld x y { card with detail := d } logoPath).filter isRect =
          (drawTradingCardFront ld x y card logoPath).filter isRect) ∧
      (DrawOp.rect (x + MARGIN) (aiAltBoxY y card.alt) (CARD_WIDTH - 2 * MARGIN)
          (ALT_BOX_HEIGHT + 4) ∈ drawTradingCardFrontAI ld x y card logoPath i ↔
        (card.alt ≠ "" ∨ card.cardType ≠ "")) := by
  intro ld x y card logoPath i
  refine ⟨?_, ?_, ?_, ?_⟩
  · by_cases halt : card.alt = ""
    · simp only [halt, ne_eq, not_true_eq_false, iff_false]
      unfold drawTradingCardFront
      cases hld : ld (card.img.getD logoPath) <;>
        simp [halt, hld, cardAltBoxY] <;>
        norm_num [MARGIN, CARD_WIDTH, CARD_HEIGHT, TITLE_HEIGHT, TYPE_LINE_HEIGHT,
          ALT_BOX_HEIGHT, TEXT_BOX_HEIGHT, TEXT_PADDING, inchQ]
    · simp only [halt, ne_eq, not_false_eq_true, iff_true]
      unfold drawTradingCardFront
      simp [halt, cardAltBoxY]
  · unfold drawTradingCardFront
    simp
  · intro d
    unfold drawTradingCardFront
    cases hld : ld (card.img.getD logoPath) <;>
      by_cases halt : card.alt = "" <;>
      by_cases hdet : card.detail = "" <;>
      by_cases hact : card.action = "" <;>
      by_cases hd : d = "" <;>
      simp [halt, hdet, hact, hd, isRect, List.filter]
  · by_cases halt : card.alt = "" <;> by_cases htyp : card.cardType = ""
    · simp only [halt, htyp, ne_eq, not_true_eq_false, or_self, iff_false]
      unfold drawTradingCardFrontAI
      cases hld : ld (card.img.getD logoPath) <;>
        simp [halt, htyp, hld, aiAltBoxY] <;>
        norm_num [MARGIN, CARD_WIDTH, CARD_HEIGHT, TITLE_HEIGHT_AI, TYPE_LINE_HEIGHT_AI,
          ALT_BOX_HEIGHT, TEXT_BOX_HEIGHT_AI, TEXT_PADDING, inchQ]
    · have hside : card.alt ≠ "" ∨ card.cardType ≠ "" := Or.inr htyp
      simp only [hside, iff_true]
      unfold drawTradingCardFrontAI
      simp [halt, htyp, aiAltBoxY]
    · have hside : card.alt ≠ "" ∨ card.cardType ≠ "" := Or.inl halt
      simp only [hside, iff_true]
      unfold drawTradingCardFrontAI
      simp [halt, htyp, aiAltBoxY]
    · have hside : card.alt ≠ "" ∨ card.cardType ≠ "" := Or.inl halt
      simp only [hside, iff_true]
      unfold drawTradingCardFrontAI
      simp [halt, htyp, aiAltBoxY]

/-- Counterexample to C8 as stated: a card whose `action` is the empty
string still gets the main text box rectangle drawn — a blank box is
rendered for the empty optional field. -/
theorem claim8_cex :
    (⟨"T", "Ty", some "img.png", "", "Alt", "Det"⟩ : Card).action = "" ∧
    DrawOp.rect (0 + MARGIN) (0 + MARGIN) (CARD_WIDTH - 2 * MARGIN) TEXT_BOX_HEIGHT
      ∈ drawTradingCardFront (fun _ => some ()) 0 0
        ⟨"T", "Ty", some "img.png", "", "Alt", "Det"⟩ "logo.png" := by
  refine ⟨rfl, ?_⟩
  unfold drawTradingCardFront
  simp

/-- Witness for C8: a card with non-empty alt text gets its alt box. -/
theorem claim8_witness :
    DrawOp.rect (0 + MARGIN) (cardAltBoxY 0) (CARD_WIDTH - 2 * MARGIN) ALT_BOX_HEIGHT
      ∈ drawTradingCardFront (fun _ => some ()) 0 0
        ⟨"T", "Ty", some "i", "Act", "Alt", "Det"⟩ "lp" :=
  ((claim8_optional_boxes (fun _ => some ()) 0 0
      ⟨"T", "Ty", some "i", "Act", "Alt", "Det"⟩ "lp" 0).1).mpr (by decide)

/-- C9: `_process_image_for_card` always resizes to exactly 1500x900 (5:3);
the crop that precedes it is centre-weighted and trims only the over-long
dimension (width when `w/h > 5/3`, height when `w/h < 5/3`, nothing at
exactly 5:3), staying inside the source image; and
`_create_simple_background` always returns a 1500x900 background in the
type's mapped colour or the dark-gray default. -/
theorem claim9_image_dims :
    (∀ w h : ℕ, 0 < w → 0 < h →
      (processImageForCard w h).2 = (1500, 900) ∧
      (3 * w > 5 * h →
        (processImageForCard w h).1 = ⟨(w - 5 * h / 3) / 2, 0, 5 * h / 3, h⟩ ∧
        5 * h / 3 < w) ∧
      (3 * w < 5 * h →
        (processImageForCard w h).1 = ⟨0, (h - 3 * w / 5) / 2, w, 3 * w / 5⟩ ∧
        3 * w / 5 < h) ∧
      (3 * w = 5 * h → (processImageForCard w h).1 = ⟨0, 0, w, h⟩) ∧
      (processImageForCard w h).1.width ≤ w ∧ (processImageForCard w h).1.height ≤ h) ∧
    (∀ t : String, (createSimpleBackground t).1 = (1500, 900) ∧
      (createSimpleBackground t).2 = (typeColors.lookup t).getD "#2F2F2F") := by
  constructor
  · intro w h hw hh
    unfold processImageForCard
    rcases lt_trichotomy (3 * w) (5 * h) with hlt | heq | hgt
    · rw [if_neg (by omega), if_pos hlt]
      dsimp only
      refine ⟨rfl, by omega, fun _ => ⟨rfl, by omega⟩, by omega, by omega, by omega⟩
    · rw [if_neg (by omega), if_neg (by omega)]
      dsimp only
      exact ⟨rfl, by omega, by omega, fun _ => rfl, by omega, by omega⟩
    · rw [if_pos hgt]
      dsimp only
      refine ⟨rfl, fun _ => ⟨rfl, by omega⟩, by omega, by omega, by omega, by omega⟩
  · intro t
    exact ⟨rfl, rfl⟩

/-- Witness for C9: a 1792x1024 input (the DALL-E landscape size) is cropped
to 1706x1024 centred at left offset 43 and resized to 1500x900. -/
theorem claim9_witness :
    (processImageForCard 1792 1024).2 = (1500, 900) ∧
    (processImageForCard 1792 1024).1 = ⟨(1792 - 5 * 1024 / 3) / 2, 0, 5 * 1024 / 3, 1024⟩ ∧
    (createSimpleBackground "Attack").2 = (typeColors.lookup "Attack").getD "#2F2F2F" :=
  ⟨(claim9_image_dims.1 1792 1024 (by decide) (by decide)).1,
   ((claim9_image_dims.1 1792 1024 (by decide) (by decide)).2.1 (by decide)).1,
   (claim9_image_dims.2 "Attack").2⟩

/-- When the very first word is over-wide by itself, the flush of the
still-empty line puts `""` at the head of the output, and no other line is
empty. -/
theorem wrapWords_first_overwide (lw : List String → ℚ) (maxw : ℚ) (w : String)
    (rest : List String) (hw : maxw < lw [w]) :
    ∃ t, wrapWords lw maxw (w :: rest) = [] :: t ∧ ∀ l ∈ t, l ≠ [] := by
  unfold wrapWords
  rw [List.foldl_cons, wrapStep_pos hw]
  dsimp only [List.nil_append]
  obtain ⟨added, h1, h2, h3⟩ := wrapFold_no_nil lw maxw rest ([[]], [w]) (by simp)
  have hsne : ¬ (rest.foldl (wrapStep lw maxw) ([[]], [w])).2.isEmpty := by
    simpa [List.isEmpty_iff] using h3
  rw [if_neg hsne, h1]
  refine ⟨added ++ [(rest.foldl (wrapStep lw maxw) ([[]], [w])).2], ?_, ?_⟩
  · simp
  · intro l hl
    rcases List.mem_append.mp hl with hl | hl
    · exact h2 l hl
    · simp only [List.mem_singleton] at hl
      subst hl
      exact h3

/-- When the first word fits on its own, the wrap emits no empty line at
all. -/
theorem wrapWords_no_empty (lw : List String → ℚ) (maxw : ℚ) (w : String)
    (rest : List String) (hw : ¬ maxw < lw [w]) :
    ∀ l ∈ wrapWords lw maxw (w :: rest), l ≠ [] := by
  intro l hl
  unfold wrapWords at hl
  rw [List.foldl_cons, wrapStep_neg hw] at hl
  dsimp only [List.nil_append] at hl
  obtain ⟨added, h1, h2, h3⟩ := wrapFold_no_nil lw maxw rest ([], [w]) (by simp)
  have hsne : ¬ (rest.foldl (wrapStep lw maxw) ([], [w])).2.isEmpty := by
    simpa [List.isEmpty_iff] using h3
  rw [if_neg hsne, h1] at hl
  rcases List.mem_append.mp hl with hl | hl
  · exact h2 l (by simpa using hl)
  · simp only [List.mem_singleton] at hl
    subst hl
    exact h3

/-- C10 (amended): `draw_multiline_text` appends an empty string to the
lines exactly when the first word of the whole text is wider than
`max_width` — that empty string is then the first emitted line and the only
empty one; when the first word fits, no empty line is emitted at all, and an
over-wide word that begins a later line is still placed alone, untruncated,
as its own line with no empty string appended for it. -/
theorem claim10_empty_line :
    (∀ (lw : List String → ℚ) (maxw : ℚ) (w : String) (rest : List String),
      (maxw < lw [w] →
        ∃ t, wrapWords lw maxw (w :: rest) = [] :: t ∧ ∀ l ∈ t, l ≠ []) ∧
      (¬ maxw < lw [w] → ∀ l ∈ wrapWords lw maxw (w :: rest), l ≠ [])) ∧
    (∀ (cw : Char → ℚ) (fs maxw : ℚ) (text : String) (w : String) (rest : List String),
      pySplit text = w :: rest → maxw < lineWidth cw fs [w] →
      (draw_multiline_text_lines cw fs maxw text).head? = some "") ∧
    (∀ (cw : Char → ℚ) (fs maxw : ℚ) (w1 : String) (rest : List String) (w : String),
      (∀ c, 0 ≤ cw c) → 0 ≤ fs →
      ¬ maxw < lineWidth cw fs [w1] → w ∈ rest → maxw < lineWidth cw fs [w] →
      [w] ∈ wrapWords (lineWidth cw fs) maxw (w1 :: rest) ∧
      ∀ l ∈ wrapWords (lineWidth cw fs) maxw (w1 :: rest), l ≠ []) := by
  refine ⟨?_, ?_, ?_⟩
  · intro lw maxw w rest
    exact ⟨wrapWords_first_overwide lw maxw w rest, wrapWords_no_empty lw maxw w rest⟩
  · intro cw fs maxw text w rest hsplit hw
    unfold draw_multiline_text_lines
    rw [hsplit]
    obtain ⟨t, ht, _⟩ := wrapWords_first_overwide (lineWidth cw fs) maxw w rest hw
    rw [ht]
    simp [joinSp]
  · intro cw fs maxw w1 rest w hcw hfs hw1 hmem hw
    refine ⟨?_, wrapWords_no_empty (lineWidth cw fs) maxw w1 rest hw1⟩
    exact wrapWords_overwide_mem (lineWidth cw fs) maxw w
      (fun l w' => lineWidth_word_le cw hcw fs hfs l w')
      (fun l w' => lineWidth_le_append cw hcw fs hfs l w')
      hw (w1 :: rest) (List.mem_cons_of_mem w1 hmem)

/-- Counterexample to C10 as stated: in `"aa"` followed by a 26-character
word, the second word is the first word of its line and is over-wide, yet no
empty string is appended — the output is exactly the two non-empty lines. -/
theorem claim10_cex :
    pySplit "aa bbbbbbbbbbbbbbbbbbbbbbbbbb" = ["aa", "bbbbbbbbbbbbbbbbbbbbbbbbbb"] ∧
    NTAG_TEXT_MAX < stringWidth modelCW "bbbbbbbbbbbbbbbbbbbbbbbbbb" 14 ∧
    draw_multiline_text_lines modelCW 14 NTAG_TEXT_MAX "aa bbbbbbbbbbbbbbbbbbbbbbbbbb" =
      ["aa", "bbbbbbbbbbbbbbbbbbbbbbbbbb"] ∧
    "" ∉ draw_multiline_text_lines modelCW 14 NTAG_TEXT_MAX
      "aa bbbbbbbbbbbbbbbbbbbbbbbbbb" := by
  have hsplit : pySplit "aa bbbbbbbbbbbbbbbbbbbbbbbbbb" =
      ["aa", "bbbbbbbbbbbbbbbbbbbbbbbbbb"] := by decide
  have h1 : ¬ NTAG_TEXT_MAX < lineWidth modelCW 14 ([] ++ ["aa"]) := by
    rw [show ([] ++ ["aa"] : List String) = ["aa"] from rfl, lineWidth,
      show joinSp ["aa"] = "aa" from rfl, stringWidth, sumW_modelCW]
    norm_num [show ("aa".length = 2) from rfl, NTAG_TEXT_MAX, NTAG_W, mmQ, inchQ]
  have h2 : NTAG_TEXT_MAX <
      lineWidth modelCW 14 (([] ++ ["aa"]) ++ ["bbbbbbbbbbbbbbbbbbbbbbbbbb"]) := by
    rw [show (([] ++ ["aa"]) ++ ["bbbbbbbbbbbbbbbbbbbbbbbbbb"] : List String) =
        ["aa", "bbbbbbbbbbbbbbbbbbbbbbbbbb"] from rfl, lineWidth,
      show joinSp ["aa", "bbbbbbbbbbbbbbbbbbbbbbbbbb"] =
        "aa" ++ " " ++ "bbbbbbbbbbbbbbbbbbbbbbbbbb" from rfl, stringWidth, sumW_modelCW]
    norm_num [show (("aa" ++ " " ++ "bbbbbbbbbbbbbbbbbbbbbbbbbb").length = 29)
      from by decide, NTAG_TEXT_MAX, NTAG_W, mmQ, inchQ]
  have hlines : draw_multiline_text_lines modelCW 14 NTAG_TEXT_MAX
      "aa bbbbbbbbbbbbbbbbbbbbbbbbbb" = ["aa", "bbbbbbbbbbbbbbbbbbbbbbbbbb"] := by
    unfold draw_multiline_text_lines wrapWords
    rw [hsplit, List.foldl_cons, wrapStep_neg h1, List.foldl_cons, wrapStep_pos h2,
      List.foldl_nil]
    simp [joinSp]
  refine ⟨hsplit, ?_, hlines, ?_⟩
  · rw [stringWidth, sumW_modelCW]
    norm_num [show ("bbbbbbbbbbbbbbbbbbbbbbbbbb".length = 26) from rfl, NTAG_TEXT_MAX,
      NTAG_W, mmQ, inchQ]
  · rw [hlines]
    decide

/-- Witness for C10: a single over-wide word yields an empty first line, and
after a fitting first word a later over-wide word is a line of its own with
no empty line anywhere. -/
theorem claim10_witness :
    (∃ t, wrapWords (lineWidth modelCW 14) NTAG_TEXT_MAX
        ["cccccccccccccccccccccccccc"] = [] :: t ∧ ∀ l ∈ t, l ≠ []) ∧
    (["cccccccccccccccccccccccccc"] ∈ wrapWords (lineWidth modelCW 14) NTAG_TEXT_MAX
        ("aa" :: ["cccccccccccccccccccccccccc"]) ∧
      ∀ l ∈ wrapWords (lineWidth modelCW 14) NTAG_TEXT_MAX
        ("aa" :: ["cccccccccccccccccccccccccc"]), l ≠ []) :=
  ⟨(claim10_empty_line.1 (lineWidth modelCW 14) NTAG_TEXT_MAX
      "cccccccccccccccccccccccccc" []).1
    (by
      rw [lineWidth,
        show joinSp ["cccccccccccccccccccccccccc"] = "cccccccccccccccccccccccccc"
          from rfl, stringWidth, sumW_modelCW]
      norm_num [show ("cccccccccccccccccccccccccc".length = 26) from rfl, NTAG_TEXT_MAX,
        NTAG_W, mmQ, inchQ]),
   claim10_empty_line.2.2 modelCW 14 NTAG_TEXT_MAX "aa" ["cccccccccccccccccccccccccc"]
     "cccccccccccccccccccccccccc" (fun c => by norm_num [modelCW]) (by norm_num)
     (by
       rw [lineWidth, show joinSp ["aa"] = "aa" from rfl, stringWidth, sumW_modelCW]
       norm_num [show ("aa".length = 2) from rfl, NTAG_TEXT_MAX, NTAG_W, mmQ, inchQ])
     (by decide)
     (by
       rw [lineWidth,
         show joinSp ["cccccccccccccccccccccccccc"] = "cccccccccccccccccccccccccc"
           from rfl, stringWidth, sumW_modelCW]
       norm_num [show ("cccccccccccccccccccccccccc".length = 26) from rfl, NTAG_TEXT_MAX,
         NTAG_W, mmQ, inchQ])⟩

end NameGrid
